import Mathlib

/-!
Shallow embedding of the WarpKate terminal emulation engine
(src/src/terminalemulator.cpp, src/src/terminalemulator.h).

Bytes are modelled as natural numbers (the value of the C++ char,
0..255), characters stored in cells as their code points, and colors as
RGB triples of integers.  Qt signal emissions are modelled as an event
list returned alongside the mutated state.  Machine integers of the
source are modelled by Int; all arithmetic in the source stays far from
the 32-bit overflow boundary for the inputs considered here.
-/

set_option maxRecDepth 8000

namespace WarpKate

/-- RGB color, modelling QColor (r, g, b). -/
structure Color where
  r : Int
  g : Int
  b : Int
deriving DecidableEq

/-- Qt::white. -/
def colorWhite : Color := ⟨255, 255, 255⟩

/-- Qt::black. -/
def colorBlack : Color := ⟨0, 0, 0⟩

/-- terminalemulator.h: TerminalCharFormat (foreground, background, attribute bits). -/
structure TerminalCharFormat where
  foreground : Color
  background : Color
  attributes : Int
deriving DecidableEq

/-- The TerminalCharFormat default constructor: Qt::white on Qt::black, attributes 0. -/
def defaultCharFormat : TerminalCharFormat := ⟨colorWhite, colorBlack, 0⟩

/-- Attribute bit constants from terminalemulator.h (TerminalAttribute). -/
def attrBold : Int := 0x01
def attrItalic : Int := 0x02
def attrUnderlineBit : Int := 0x04
def attrStrikeThrough : Int := 0x08
def attrReverse : Int := 0x10
def attrBlink : Int := 0x20
def attrDim : Int := 0x40
def attrInvisible : Int := 0x80

/-- C++ `attributes &= ~mask`.  The attribute field only ever holds bits 0..7,
so clearing within an 8-bit window agrees with the C++ int operation. -/
def clearAttrBits (attrs mask : Int) : Int :=
  (attrs.toNat &&& (0xFF ^^^ mask.toNat) : Nat)

/-- C++ `attributes |= mask`. -/
def setAttrBits (attrs mask : Int) : Int :=
  (attrs.toNat ||| mask.toNat : Nat)

/-- terminalemulator.h: TerminalCell (character plus format). -/
structure TerminalCell where
  character : Nat
  format : TerminalCharFormat
deriving DecidableEq

/-- TerminalCell(' ', fmt): a blank (space) cell with the given format. -/
def blankCell (fmt : TerminalCharFormat) : TerminalCell := ⟨32, fmt⟩

/-- A screen line: QVector<TerminalCell>. -/
abbrev TerminalLine := List TerminalCell

/-- The ANSI 16-color palette set up in the TerminalEmulator constructor
(m_colorPalette keys 0..15).  Other keys are absent from the QMap; the
fallback value is never consulted by the code paths modelled here. -/
def colorPalette : Nat → Color
  | 0 => ⟨0, 0, 0⟩
  | 1 => ⟨170, 0, 0⟩
  | 2 => ⟨0, 170, 0⟩
  | 3 => ⟨170, 85, 0⟩
  | 4 => ⟨0, 0, 170⟩
  | 5 => ⟨170, 0, 170⟩
  | 6 => ⟨0, 170, 170⟩
  | 7 => ⟨170, 170, 170⟩
  | 8 => ⟨85, 85, 85⟩
  | 9 => ⟨255, 85, 85⟩
  | 10 => ⟨85, 255, 85⟩
  | 11 => ⟨255, 255, 85⟩
  | 12 => ⟨85, 85, 255⟩
  | 13 => ⟨255, 85, 255⟩
  | 14 => ⟨85, 255, 255⟩
  | 15 => ⟨255, 255, 255⟩
  | _ => ⟨0, 0, 0⟩

/-- Qt signals emitted by the emulator that the modelled code paths can raise. -/
inductive Event where
  | bellTriggered
  | redrawRequired
  | cursorPositionChanged (x y : Int)
  | titleChanged (title : List Nat)
  | workingDirectoryChanged (dir : List Nat)
  | sizeChanged (cols rows : Int)
deriving DecidableEq

/-- The state of the terminal emulator (the member fields of TerminalEmulator
that the modelled code paths read or write). -/
structure Core where
  width : Int
  height : Int
  screen : List TerminalLine
  alternateScreen : List TerminalLine
  alternateScreenActive : Bool
  cursorX : Int
  cursorY : Int
  cursorVisible : Bool
  currentFormat : TerminalCharFormat
  savedCursorX : Int
  savedCursorY : Int
  savedFormat : TerminalCharFormat
  scrollRegionTop : Int
  scrollRegionBottom : Int
  defaultForeground : Color
  defaultBackground : Color
  escapeBuffer : List Nat
  parsingEscapeSequence : Bool
  newLineMode : Bool
  applicationCursorKeys : Bool
  bracketedPasteMode : Bool
  workingDirectory : List Nat
  terminalTitle : List Nat
deriving DecidableEq

/-- The screen buffer selected by m_alternateScreenActive. -/
def Core.activeScreen (c : Core) : List TerminalLine :=
  if c.alternateScreenActive then c.alternateScreen else c.screen

/-- The screen buffer NOT selected by m_alternateScreenActive. -/
def Core.inactiveScreen (c : Core) : List TerminalLine :=
  if c.alternateScreenActive then c.screen else c.alternateScreen

/-- Store back the active screen buffer. -/
def Core.setActive (c : Core) (s : List TerminalLine) : Core :=
  if c.alternateScreenActive then { c with alternateScreen := s } else { c with screen := s }

/-- Sequence two state transformers, concatenating their emitted events. -/
def andE (r : Core × List Event) (f : Core → Core × List Event) : Core × List Event :=
  let r2 := f r.1
  (r2.1, r.2 ++ r2.2)

/-- TerminalEmulator::setCursorPositionInternal.  Clamps to the screen bounds
when requested (the default at every call site except the explicit `true` in
resize), updates the cursor, and emits cursorPositionChanged if it moved. -/
def setCursorPositionInternal (c : Core) (x y : Int) (clampToScreen : Bool) :
    Core × List Event :=
  let x' := if clampToScreen then max 0 (min x (c.width - 1)) else x
  let y' := if clampToScreen then max 0 (min y (c.height - 1)) else y
  ({ c with cursorX := x', cursorY := y' },
   if c.cursorX = x' ∧ c.cursorY = y' then [] else [Event.cursorPositionChanged x' y'])

/-- TerminalEmulator::createBlankLine: a line of width spaces in the current format. -/
def createBlankLine (c : Core) : TerminalLine :=
  List.replicate c.width.toNat (blankCell c.currentFormat)

/-- One iteration of the scroll-up loop in TerminalEmulator::scrollScreen:
removeAt(scrollRegionTop) then insert(scrollRegionBottom, blank), guarded by
top < bottom. -/
def scrollUpSteps (top bottom : Int) (blank : TerminalLine) :
    Nat → List TerminalLine → List TerminalLine
  | 0, s => s
  | n + 1, s =>
      let s' := if top < bottom then
        List.insertIdx bottom.toNat blank (s.eraseIdx top.toNat) else s
      scrollUpSteps top bottom blank n s'

/-- One iteration of the scroll-down loop in TerminalEmulator::scrollScreen:
removeAt(scrollRegionBottom) then insert(scrollRegionTop, blank), guarded by
top < bottom. -/
def scrollDownSteps (top bottom : Int) (blank : TerminalLine) :
    Nat → List TerminalLine → List TerminalLine
  | 0, s => s
  | n + 1, s =>
      let s' := if top < bottom then
        List.insertIdx top.toNat blank (s.eraseIdx bottom.toNat) else s
      scrollDownSteps top bottom blank n s'

/-- TerminalEmulator::scrollScreen. -/
def scrollScreen (c : Core) (lines : Int) : Core :=
  if lines = 0 then c
  else
    let blank := createBlankLine c
    let s := c.activeScreen
    let s' := if 0 < lines then
        scrollUpSteps c.scrollRegionTop c.scrollRegionBottom blank lines.toNat s
      else
        scrollDownSteps c.scrollRegionTop c.scrollRegionBottom blank (-lines).toNat s
    c.setActive s'

/-- Pad a line on the right with `a` until it has length `n`
(the `while (size <= x) append` loop of putCharacter). -/
def padTo (l : TerminalLine) (n : Nat) (a : TerminalCell) : TerminalLine :=
  l ++ List.replicate (n - l.length) a

/-- TerminalEmulator::putCharacter. -/
def putCharacter (c : Core) (ch : Nat) : Core × List Event :=
  let active := c.activeScreen
  if c.cursorY < 0 ∨ (active.length : Int) ≤ c.cursorY then (c, [])
  else
    let line := active.getD c.cursorY.toNat []
    let line' := (padTo line (c.cursorX.toNat + 1) (blankCell c.currentFormat)).set
      c.cursorX.toNat ⟨ch, c.currentFormat⟩
    let c := c.setActive (active.set c.cursorY.toNat line')
    if c.width ≤ c.cursorX + 1 then
      andE (setCursorPositionInternal c 0 (c.cursorY + 1) true) fun c =>
        if c.scrollRegionBottom < c.cursorY then
          setCursorPositionInternal (scrollScreen c 1) 0 c.scrollRegionBottom true
        else (c, [])
    else
      setCursorPositionInternal c (c.cursorX + 1) c.cursorY true

/-- TerminalEmulator::clear: blank-fill every cell of the active screen with a
space in the CURRENT format and home the cursor. -/
def clear (c : Core) : Core × List Event :=
  let s' := c.activeScreen.map (fun line => line.map (fun _ => blankCell c.currentFormat))
  setCursorPositionInternal (c.setActive s') 0 0 true

/-- The 256-color lookup of the SGR 38/48;5 branch of processSGR. -/
def extendedColor (code : Int) : Color :=
  -- m_colorPalette.contains(colorCode): keys 0..15 are present
  if 0 ≤ code ∧ code < 16 then colorPalette code.toNat
  else if code < 16 then
    -- negative code: QMap operator[] yields a default QColor; unreachable here
    ⟨0, 0, 0⟩
  else if code < 232 then
    -- 6x6x6 color cube
    let ci := code - 16
    ⟨(ci / 36) * 51, ((ci / 6) % 6) * 51, (ci % 6) * 51⟩
  else
    -- 24-step grayscale ramp
    let g := (code - 232) * 11
    ⟨g, g, g⟩

/-- One switch dispatch of the parameter loop of TerminalEmulator::processSGR:
the updated format together with the number of extra parameters consumed by
the 38/48 extended-color branches (the i += 2 / i += 4 of the source). -/
def sgrStep (defFg defBg : Color) (fmt : TerminalCharFormat) (p : Int) (rest : List Int) :
    TerminalCharFormat × Nat :=
  if p = 0 then (⟨defFg, defBg, 0⟩, 0)
  else if p = 1 then ({ fmt with attributes := setAttrBits fmt.attributes attrBold }, 0)
  else if p = 2 then ({ fmt with attributes := setAttrBits fmt.attributes attrDim }, 0)
  else if p = 3 then ({ fmt with attributes := setAttrBits fmt.attributes attrItalic }, 0)
  else if p = 4 then ({ fmt with attributes := setAttrBits fmt.attributes attrUnderlineBit }, 0)
  else if p = 5 ∨ p = 6 then ({ fmt with attributes := setAttrBits fmt.attributes attrBlink }, 0)
  else if p = 7 then ({ fmt with attributes := setAttrBits fmt.attributes attrReverse }, 0)
  else if p = 8 then ({ fmt with attributes := setAttrBits fmt.attributes attrInvisible }, 0)
  else if p = 9 then ({ fmt with attributes := setAttrBits fmt.attributes attrStrikeThrough }, 0)
  else if p = 22 then ({ fmt with attributes := clearAttrBits fmt.attributes (setAttrBits attrBold attrDim) }, 0)
  else if p = 23 then ({ fmt with attributes := clearAttrBits fmt.attributes attrItalic }, 0)
  else if p = 24 then ({ fmt with attributes := clearAttrBits fmt.attributes attrUnderlineBit }, 0)
  else if p = 25 then ({ fmt with attributes := clearAttrBits fmt.attributes attrBlink }, 0)
  else if p = 27 then ({ fmt with attributes := clearAttrBits fmt.attributes attrReverse }, 0)
  else if p = 28 then ({ fmt with attributes := clearAttrBits fmt.attributes attrInvisible }, 0)
  else if p = 29 then ({ fmt with attributes := clearAttrBits fmt.attributes attrStrikeThrough }, 0)
  else if 30 ≤ p ∧ p ≤ 37 then ({ fmt with foreground := colorPalette (p - 30).toNat }, 0)
  else if p = 38 then
    match rest with
    | a :: code :: rest' =>
      if a = 5 then ({ fmt with foreground := extendedColor code }, 2)
      else if a = 2 then
        match rest' with
        | g :: b :: _ => ({ fmt with foreground := ⟨code, g, b⟩ }, 4)
        | _ => (fmt, 0)
      else (fmt, 0)
    | _ => (fmt, 0)
  else if p = 39 then ({ fmt with foreground := defFg }, 0)
  else if 40 ≤ p ∧ p ≤ 47 then ({ fmt with background := colorPalette (p - 40).toNat }, 0)
  else if p = 48 then
    match rest with
    | a :: code :: rest' =>
      if a = 5 then ({ fmt with background := extendedColor code }, 2)
      else if a = 2 then
        match rest' with
        | g :: b :: _ => ({ fmt with background := ⟨code, g, b⟩ }, 4)
        | _ => (fmt, 0)
      else (fmt, 0)
    | _ => (fmt, 0)
  else if p = 49 then ({ fmt with background := defBg }, 0)
  else if 90 ≤ p ∧ p ≤ 97 then ({ fmt with foreground := colorPalette (p - 90 + 8).toNat }, 0)
  else if 100 ≤ p ∧ p ≤ 107 then ({ fmt with background := colorPalette (p - 100 + 8).toNat }, 0)
  else (fmt, 0)

/-- The parameter loop of TerminalEmulator::processSGR, fuel-indexed so that
the recursion is structural; each iteration consumes at least one parameter,
so fuel equal to the parameter count suffices. -/
def sgrLoopAux (defFg defBg : Color) : Nat → TerminalCharFormat → List Int → TerminalCharFormat
  | 0, fmt, _ => fmt
  | _ + 1, fmt, [] => fmt
  | fuel + 1, fmt, p :: rest =>
      let r := sgrStep defFg defBg fmt p rest
      sgrLoopAux defFg defBg fuel r.1 (rest.drop r.2)

/-- The parameter loop of TerminalEmulator::processSGR, as a function of the
current format. -/
def sgrLoop (defFg defBg : Color) (fmt : TerminalCharFormat) (l : List Int) :
    TerminalCharFormat :=
  sgrLoopAux defFg defBg l.length fmt l

/-- TerminalEmulator::processSGR. -/
def processSGR (c : Core) (parameters : List Int) : Core :=
  if parameters.isEmpty then
    { c with currentFormat := ⟨c.defaultForeground, c.defaultBackground, 0⟩ }
  else
    { c with currentFormat :=
        sgrLoop c.defaultForeground c.defaultBackground c.currentFormat parameters }

/-- QByteArray::split(';') on a byte list. -/
def splitSemi : List Nat → List (List Nat)
  | [] => [[]]
  | b :: rest =>
      if b = 59 then [] :: splitSemi rest
      else
        match splitSemi rest with
        | g :: gs => (b :: g) :: gs
        | [] => [[b]]

/-- Decimal digit accumulation for QByteArray::toInt: fails on an empty list
or on any non-digit byte. -/
def digitsVal (l : List Nat) : Option Nat :=
  match l with
  | [] => none
  | _ => (l.foldl (fun acc d =>
      acc.bind fun v => if 48 ≤ d ∧ d ≤ 57 then some (v * 10 + (d - 48)) else none)
      (some 0))

/-- QByteArray::toInt with its ok flag: none when the conversion fails.
An optional sign followed by at least one decimal digit succeeds;
anything else fails (yielding 0 at the call sites that ignore ok). -/
def toIntOpt (l : List Nat) : Option Int :=
  match l with
  | 45 :: rest => (digitsVal rest).map (fun v => -(v : Int))
  | 43 :: rest => (digitsVal rest).map (fun v => (v : Int))
  | _ => (digitsVal l).map (fun v => (v : Int))

/-- QByteArray::toInt as used when the ok flag is ignored (failure gives 0). -/
def toIntDef (l : List Nat) : Int := (toIntOpt l).getD 0

/-- TerminalEmulator::parseParameters. -/
def parseParameters (seq : List Nat) (start len : Int) : List Int :=
  let len := min len ((seq.length : Int) - start)
  if len ≤ 0 then []
  else ((seq.drop start.toNat).take len.toNat |> splitSemi).map toIntDef

/-- A CSI final letter per the search loop of processCSI: A-Z or a-z. -/
def isLetterByte (b : Nat) : Bool :=
  (65 ≤ b ∧ b ≤ 90) ∨ (97 ≤ b ∧ b ≤ 122)

/-- The position of the CSI final byte: the first letter at index ≥ 2, or the
sequence length when there is none (the incomplete case). -/
def finalLetterPos (seq : List Nat) : Nat :=
  2 + ((seq.drop 2).takeWhile (fun b => ¬ isLetterByte b)).length

/-- Blank-fill the cells of a line from index x (inclusive) to the end
(the EL/ED partial-line loops). -/
def clearLineFrom (line : TerminalLine) (x : Nat) (fmt : TerminalCharFormat) : TerminalLine :=
  line.take x ++ List.replicate (line.length - x) (blankCell fmt)

/-- Blank-fill the cells of a line at indices ≤ x (for loops of the form
`for (i = 0; i <= x && i < size; ++i)`), with x an Int bound. -/
def clearLineTo (line : TerminalLine) (x : Int) (fmt : TerminalCharFormat) : TerminalLine :=
  line.mapIdx (fun i cell => if (i : Int) ≤ x then blankCell fmt else cell)

/-- Blank-fill a whole line. -/
def clearLineAll (line : TerminalLine) (fmt : TerminalCharFormat) : TerminalLine :=
  line.map (fun _ => blankCell fmt)

/-- The ED (CSI J) dispatch in processCSI. -/
def eraseDisplay (c : Core) (mode : Int) : Core :=
  let active := c.activeScreen
  if mode = 0 then
    if c.cursorY < (active.length : Int) then
      c.setActive (active.mapIdx (fun y line =>
        if (y : Int) = c.cursorY then clearLineFrom line c.cursorX.toNat c.currentFormat
        else if c.cursorY < (y : Int) then clearLineAll line c.currentFormat
        else line))
    else c
  else if mode = 1 then
    let c := c.setActive (active.mapIdx (fun y line =>
      if (y : Int) < c.cursorY then clearLineAll line c.currentFormat else line))
    let active := c.activeScreen
    if c.cursorY < (active.length : Int) then
      let line := active.getD c.cursorY.toNat []
      let cx := min c.cursorX ((line.length : Int) - 1)
      c.setActive (active.set c.cursorY.toNat (clearLineTo line cx c.currentFormat))
    else c
  else if mode = 2 ∨ mode = 3 then
    c.setActive (active.map (fun line => clearLineAll line c.currentFormat))
  else c

/-- The EL (CSI K) dispatch in processCSI. -/
def eraseLine (c : Core) (mode : Int) : Core :=
  let active := c.activeScreen
  if c.cursorY < 0 ∨ (active.length : Int) ≤ c.cursorY then c
  else
    let line := active.getD c.cursorY.toNat []
    let line' :=
      if mode = 0 then clearLineFrom line c.cursorX.toNat c.currentFormat
      else if mode = 1 then clearLineTo line c.cursorX c.currentFormat
      else if mode = 2 then clearLineAll line c.currentFormat
      else line
    c.setActive (active.set c.cursorY.toNat line')

/-- One mode of the CSI h/l loop (DEC private modes). -/
def applyPrivateMode (set : Bool) (c : Core) (mode : Int) : Core × List Event :=
  if mode = 1 then ({ c with applicationCursorKeys := set }, [])
  else if mode = 25 then ({ c with cursorVisible := set }, [])
  else if mode = 47 ∨ mode = 1047 then
    if set ≠ c.alternateScreenActive then
      setCursorPositionInternal { c with alternateScreenActive := set } 0 0 true
    else (c, [])
  else if mode = 1048 then
    if set then
      ({ c with savedCursorX := c.cursorX, savedCursorY := c.cursorY,
                savedFormat := c.currentFormat }, [])
    else
      ({ c with cursorX := c.savedCursorX, cursorY := c.savedCursorY,
                currentFormat := c.savedFormat }, [])
  else if mode = 1049 then
    if set then
      setCursorPositionInternal
        { c with savedCursorX := c.cursorX, savedCursorY := c.cursorY,
                 savedFormat := c.currentFormat, alternateScreenActive := true } 0 0 true
    else
      ({ c with alternateScreenActive := false,
                cursorX := c.savedCursorX, cursorY := c.savedCursorY,
                currentFormat := c.savedFormat }, [])
  else if mode = 2004 then ({ c with bracketedPasteMode := set }, [])
  else (c, [])

/-- One mode of the CSI h/l loop (standard modes). -/
def applyStandardMode (set : Bool) (c : Core) (mode : Int) : Core × List Event :=
  if mode = 20 then ({ c with newLineMode := set }, [])
  else (c, [])

/-- The h/l mode loop over the parsed mode list. -/
def applyModes (priv set : Bool) (c : Core) : List Int → Core × List Event
  | [] => (c, [])
  | m :: rest =>
      let r := if priv then applyPrivateMode set c m else applyStandardMode set c m
      andE r (fun c' => applyModes priv set c' rest)

/-- The DECSTBM (CSI r) branch of processCSI: set the scroll region when
top < bottom after 1-based to 0-based conversion, else ignore the request. -/
def csiSetRegion (c : Core) (parameters : List Int) : Core × List Event :=
  let top := parameters.headD 1
  let bottom := if parameters.length < 2 then c.height else parameters.getD 1 0
  let top := max 1 top - 1
  let bottom := min c.height bottom - 1
  if top < bottom then
    setCursorPositionInternal
      { c with scrollRegionTop := top, scrollRegionBottom := bottom } 0 top true
  else (c, [])

/-- The h/l (set/reset mode) branch of processCSI. -/
def csiModeSet (c : Core) (seq : List Nat) (fp : Nat) (finalByte : Nat) :
    Core × List Event :=
  let set := finalByte = 104
  let isPrivateMode := 2 < seq.length ∧ seq.getD 2 0 = 63
  let modeOffset : Int := if isPrivateMode then 3 else 2
  let modeParams := parseParameters seq modeOffset ((fp : Int) - modeOffset)
  if modeParams.isEmpty then (c, [])
  else applyModes isPrivateMode set c modeParams

/-- The switch on the final byte of processCSI, as a function of the locals
fp/finalByte/parameters computed by the surrounding code. -/
def processCSIDispatch (c : Core) (seq : List Nat) (fp : Nat) (finalByte : Nat)
    (parameters : List Int) : Core × List Event :=
  if finalByte = 65 then       -- A: cursor up
    setCursorPositionInternal c c.cursorX (c.cursorY - max (parameters.headD 1) 1) true
  else if finalByte = 66 then  -- B: cursor down
    setCursorPositionInternal c c.cursorX (c.cursorY + max (parameters.headD 1) 1) true
  else if finalByte = 67 then  -- C: cursor forward
    setCursorPositionInternal c (c.cursorX + max (parameters.headD 1) 1) c.cursorY true
  else if finalByte = 68 then  -- D: cursor backward
    setCursorPositionInternal c (c.cursorX - max (parameters.headD 1) 1) c.cursorY true
  else if finalByte = 69 then  -- E: cursor next line
    setCursorPositionInternal c 0 (c.cursorY + max (parameters.headD 1) 1) true
  else if finalByte = 70 then  -- F: cursor previous line
    setCursorPositionInternal c 0 (c.cursorY - max (parameters.headD 1) 1) true
  else if finalByte = 71 then  -- G: cursor horizontal absolute
    setCursorPositionInternal c (max (parameters.headD 1) 1 - 1) c.cursorY true
  else if finalByte = 72 ∨ finalByte = 102 then  -- H / f: cursor position
    setCursorPositionInternal c (max (parameters.getD 1 1) 1 - 1)
      (max (parameters.headD 1) 1 - 1) true
  else if finalByte = 74 then  -- J: erase display
    (eraseDisplay c (parameters.headD 0), [])
  else if finalByte = 75 then  -- K: erase line
    (eraseLine c (parameters.headD 0), [])
  else if finalByte = 109 then -- m: SGR
    (processSGR c parameters, [])
  else if finalByte = 114 then -- r: set scroll region
    csiSetRegion c parameters
  else if finalByte = 115 then -- s: save cursor
    ({ c with savedCursorX := c.cursorX, savedCursorY := c.cursorY,
              savedFormat := c.currentFormat }, [])
  else if finalByte = 117 then -- u: restore cursor (direct assignment, no clamping)
    ({ c with cursorX := c.savedCursorX, cursorY := c.savedCursorY,
              currentFormat := c.savedFormat }, [])
  else if finalByte = 104 ∨ finalByte = 108 then -- h / l: set/reset mode
    csiModeSet c seq fp finalByte
  else (c, [])

/-- TerminalEmulator::processCSI (the int return value is ignored by all
callers): find the final byte, parse the parameters, and dispatch. -/
def processCSI (c : Core) (seq : List Nat) : Core × List Event :=
  let fp := finalLetterPos seq
  if seq.length ≤ fp then (c, [])
  else processCSIDispatch c seq fp (seq.getD fp 0) (parseParameters seq 2 ((fp : Int) - 2))

/-- The OSC terminator search loop over the bytes from index e onward: stops
at the first BEL, or at the backslash of an ESC-backslash pair (the
endPos++ before the break in the source); yields the sequence length when no
terminator occurs. -/
def oscScan : List Nat → Nat → Nat
  | [], e => e
  | b :: rest, e =>
      if b = 7 then e
      else
        match rest with
        | b2 :: _ => if b = 27 ∧ b2 = 92 then e + 1 else oscScan rest (e + 1)
        | [] => oscScan rest (e + 1)

/-- The OSC terminator position of processOSC: the scan starts at index 2. -/
def oscEndFrom (seq : List Nat) (e : Nat) : Nat :=
  oscScan (seq.drop e) e

/-- TerminalEmulator::processOSC. -/
def processOSC (c : Core) (seq : List Nat) : Core × List Event :=
  let endPos := oscEndFrom seq 2
  if seq.length ≤ endPos then (c, [])
  else
    let paramString := (seq.drop 2).take (endPos - 2)
    match paramString.findIdx? (fun b => b = 59) with
    | none => (c, [])
    | some semicolonPos =>
        match toIntOpt (paramString.take semicolonPos) with
        | none => (c, [])
        | some cmdNum =>
            let param := paramString.drop (semicolonPos + 1)
            if cmdNum = 0 ∨ cmdNum = 2 then
              ({ c with terminalTitle := param }, [Event.titleChanged param])
            else if cmdNum = 7 then
              ({ c with workingDirectory := param }, [Event.workingDirectoryChanged param])
            else (c, [])

/-- TerminalEmulator::processEscapeSequence (the int return value is ignored
by the caller). -/
def processEscapeSequence (c : Core) (seq : List Nat) : Core × List Event :=
  if seq.length < 2 ∨ seq.getD 0 0 ≠ 27 then (c, [])
  else
    let b := seq.getD 1 0
    if b = 91 then processCSI c seq         -- [
    else if b = 93 then processOSC c seq    -- ]
    else if b = 68 then                     -- D: index
      setCursorPositionInternal c c.cursorX (c.cursorY + 1) true
    else if b = 77 then                     -- M: reverse index
      setCursorPositionInternal c c.cursorX (c.cursorY - 1) true
    else if b = 69 then                     -- E: next line
      setCursorPositionInternal c 0 (c.cursorY + 1) true
    else if b = 99 then                     -- c: RIS full reset
      andE (clear c) fun c =>
        setCursorPositionInternal { c with currentFormat := defaultCharFormat } 0 0 true
    else if b = 55 then                     -- 7: save cursor
      ({ c with savedCursorX := c.cursorX, savedCursorY := c.cursorY,
                savedFormat := c.currentFormat }, [])
    else if b = 56 then                     -- 8: restore cursor (no clamping)
      ({ c with cursorX := c.savedCursorX, cursorY := c.savedCursorY,
                currentFormat := c.savedFormat }, [])
    else (c, [])

/-- A final byte per TerminalEmulator::isEscapeSequenceFinal: 0x40..0x7E. -/
def isEscapeSequenceFinal (b : Nat) : Bool := 64 ≤ b ∧ b ≤ 126

/-- One iteration of the byte loop of TerminalEmulator::processOutputData. -/
def processByte (c : Core) (b : Nat) : Core × List Event :=
  if c.parsingEscapeSequence then
    let c := { c with escapeBuffer := c.escapeBuffer ++ [b] }
    if isEscapeSequenceFinal b then
      andE (processEscapeSequence c c.escapeBuffer) fun c' =>
        ({ c' with escapeBuffer := [], parsingEscapeSequence := false }, [])
    else (c, [])
  else if b = 27 then      -- ESC: start collecting an escape sequence
    ({ c with escapeBuffer := [27], parsingEscapeSequence := true }, [])
  else if b = 8 then       -- BS
    if 0 < c.cursorX then setCursorPositionInternal c (c.cursorX - 1) c.cursorY true
    else (c, [])
  else if b = 9 then       -- TAB: (x + 8) & ~7, i.e. the next multiple of 8
    let newX := 8 * ((c.cursorX + 8) / 8)
    let newX := if c.width ≤ newX then c.width - 1 else newX
    setCursorPositionInternal c newX c.cursorY true
  else if b = 13 then      -- CR
    setCursorPositionInternal c 0 c.cursorY true
  else if b = 10 then      -- LF
    let r := if c.newLineMode then setCursorPositionInternal c 0 (c.cursorY + 1) true
             else setCursorPositionInternal c c.cursorX (c.cursorY + 1) true
    andE r fun c =>
      if c.scrollRegionBottom < c.cursorY then
        setCursorPositionInternal (scrollScreen c 1) c.cursorX c.scrollRegionBottom true
      else (c, [])
  else if b = 7 then       -- BEL
    (c, [Event.bellTriggered])
  else if b = 12 then      -- FF: clear screen
    clear c
  else
    putCharacter c b

/-- The byte loop of TerminalEmulator::processOutputData. -/
def processBytes (c : Core) : List Nat → Core × List Event
  | [] => (c, [])
  | b :: rest => andE (processByte c b) (fun c' => processBytes c' rest)

/-- TerminalEmulator::processOutputData: the byte loop followed by the final
redrawRequired emission. -/
def processOutputData (c : Core) (data : List Nat) : Core × List Event :=
  let r := processBytes c data
  (r.1, r.2 ++ [Event.redrawRequired])

/-- The state after the TerminalEmulator constructor followed by
initialize(rows, cols): both screens filled with blank lines, full-screen
scroll region, cursor homed, default colors, empty parser state. -/
def initState (rows cols : Int) : Core :=
  let base : Core := {
    width := cols, height := rows,
    screen := [], alternateScreen := [],
    alternateScreenActive := false,
    cursorX := 0, cursorY := 0, cursorVisible := true,
    currentFormat := defaultCharFormat,
    savedCursorX := 0, savedCursorY := 0, savedFormat := defaultCharFormat,
    scrollRegionTop := 0, scrollRegionBottom := rows - 1,
    defaultForeground := colorWhite, defaultBackground := colorBlack,
    escapeBuffer := [], parsingEscapeSequence := false,
    newLineMode := false, applicationCursorKeys := false,
    bracketedPasteMode := false,
    workingDirectory := [], terminalTitle := [] }
  { base with
      screen := List.replicate rows.toNat (createBlankLine base),
      alternateScreen := List.replicate rows.toNat (createBlankLine base) }

/-- The per-line copy-and-pad step of TerminalEmulator::resize. -/
def resizeLine (line : TerminalLine) (cols : Nat) (fmt : TerminalCharFormat) : TerminalLine :=
  line.take cols ++ List.replicate (cols - min cols line.length) (blankCell fmt)

/-- The screen-buffer part of TerminalEmulator::resize. -/
def resizeBuffer (s : List TerminalLine) (rows cols : Nat) (fmt : TerminalCharFormat)
    (blank : TerminalLine) : List TerminalLine :=
  (s.take rows).map (fun line => resizeLine line cols fmt) ++
    List.replicate (rows - min rows s.length) blank

/-- TerminalEmulator::resize (without the PTY ioctl, which does not touch
emulator state).  Note that the alternate screen is only resized when it is
the active one, and that padding uses the CURRENT format. -/
def resize (c : Core) (rows cols : Int) : Core × List Event :=
  let c := { c with width := cols, height := rows }
  let blank := createBlankLine c
  let c := { c with screen := resizeBuffer c.screen rows.toNat cols.toNat c.currentFormat blank }
  let c := if c.alternateScreenActive then
      { c with alternateScreen :=
          resizeBuffer c.alternateScreen rows.toNat cols.toNat c.currentFormat blank }
    else c
  andE (setCursorPositionInternal c c.cursorX c.cursorY true) fun c =>
    ({ c with scrollRegionTop := min c.scrollRegionTop (rows - 1),
              scrollRegionBottom := min c.scrollRegionBottom (rows - 1) },
     [Event.sizeChanged cols rows, Event.redrawRequired])

/-- TerminalEmulator::characterAt.  QChar() is the null character (code 0). -/
def characterAt (c : Core) (x y : Int) : Nat :=
  let active := c.activeScreen
  if y < 0 ∨ (active.length : Int) ≤ y ∨ x < 0 ∨ c.width ≤ x then 0
  else
    let line := active.getD y.toNat []
    if (line.length : Int) ≤ x then 32
    else (line.getD x.toNat (blankCell defaultCharFormat)).character

/-- TerminalEmulator::formatAt. -/
def formatAt (c : Core) (x y : Int) : TerminalCharFormat :=
  let active := c.activeScreen
  if y < 0 ∨ (active.length : Int) ≤ y ∨ x < 0 ∨ c.width ≤ x then defaultCharFormat
  else
    let line := active.getD y.toNat []
    if (line.length : Int) ≤ x then c.currentFormat
    else (line.getD x.toNat (blankCell defaultCharFormat)).format

/-- The cell stored at column j of row i of a screen buffer, when present. -/
def cellAt (s : List TerminalLine) (i j : Nat) : Option TerminalCell :=
  s[i]?.bind fun row => row[j]?

/-- Recognizer for the workingDirectoryChanged signal. -/
def isWdEvent : Event → Bool
  | Event.workingDirectoryChanged _ => true
  | _ => false

/-- The cursor and the saved cursor both lie within the screen bounds. -/
def cursorInv (c : Core) : Prop :=
  0 ≤ c.cursorX ∧ c.cursorX < c.width ∧ 0 ≤ c.cursorY ∧ c.cursorY < c.height ∧
  0 ≤ c.savedCursorX ∧ c.savedCursorX < c.width ∧
  0 ≤ c.savedCursorY ∧ c.savedCursorY < c.height

instance (c : Core) : Decidable (cursorInv c) := by unfold cursorInv; infer_instance

/-- A screen of at least one row and one column whose cursor and saved cursor
are in bounds: the inductive invariant for byte processing. -/
def emuInv (c : Core) : Prop := 1 ≤ c.width ∧ 1 ≤ c.height ∧ cursorInv c

/-- A single cell write of the Cell & Screen model: position the cursor at
(x, y) and put a character there, both through the emulator operations. -/
def applyWrite (c : Core) (w : Int × Int × Nat) : Core :=
  (putCharacter (setCursorPositionInternal c w.1 w.2.1 true).1 w.2.2).1

/-- A sequence of cell writes. -/
def applyWrites (c : Core) (ws : List (Int × Int × Nat)) : Core :=
  ws.foldl applyWrite c

/-- The bytes of the string A ESC [ 3 1 m B ESC [ 0 m C from spec Example 1. -/
def exampleOneBytes : List Nat := [65, 27, 91, 51, 49, 109, 66, 27, 91, 48, 109, 67]

/-- The bytes of the OSC string ESC ] 7 ; / h o m e / u s e r BEL from spec Example 2. -/
def exampleTwoBytes : List Nat := [27, 93, 55, 59, 47, 104, 111, 109, 101, 47, 117, 115, 101, 114, 7]

/-- Twenty-five newline-separated single-character lines (a..y) for spec Example 3. -/
def exampleThreeBytes : List Nat :=
  (List.range 25).flatMap (fun i => if i = 0 then [97 + i] else [10, 97 + i])

/-- The bytes of CSI ?1049h. -/
def csiAltOn : List Nat := [27, 91, 63, 49, 48, 52, 57, 104]

/-- The bytes of CSI ?1049l. -/
def csiAltOff : List Nat := [27, 91, 63, 49, 48, 52, 57, 108]

/-- The bytes of CSI 3;3H (cursor to row 3, column 3, 1-based). -/
def csiCup33 : List Nat := [27, 91, 51, 59, 51, 72]

/-- The bytes of CSI s (save cursor). -/
def csiSaveCursor : List Nat := [27, 91, 115]

/-- The bytes of CSI u (restore cursor). -/
def csiRestoreCursor : List Nat := [27, 91, 117]

/-- A 2x2 emulator whose stored lines are empty, so that every in-bounds
position lies beyond the length of its line (an unwritten position). -/
def shortLineState : Core := { initState 2 2 with screen := [[], []] }

/-- A 4-row, 3-column emulator with scroll region rows 1..2 and each row r
filled with the marker character 100+r. -/
def scrollDemoState : Core :=
  { initState 4 3 with
      scrollRegionTop := 1,
      scrollRegionBottom := 2,
      screen := (List.range 4).map
        (fun r => List.replicate 3 (⟨100 + r, defaultCharFormat⟩ : TerminalCell)) }

/-!  Theorems: one per claim of the specification, plus shared lemmas.  -/

/-- C1: the claim (spec Example 1) states that the bytes
A ESC [ 3 1 m B ESC [ 0 m C on a blank 1-row screen leave A, a red B and C
in cells 0..2 with the cursor at column 3.  The code instead dispatches the
escape sequence as soon as the byte [ arrives (0x5B lies in the final-byte
range 0x40..0x7E of isEscapeSequenceFinal), processCSI reports the two-byte
buffer incomplete, the returned 0 is ignored and the parser state is reset,
so 3 1 m are printed literally: cell (1,0) holds the digit 3, B sits at
column 4 with the default white foreground, and the cursor ends at column 8. -/
theorem claim_C1_divergence :
    characterAt ((processOutputData (initState 1 10) exampleOneBytes).1) 1 0 = 51 ∧
    characterAt ((processOutputData (initState 1 10) exampleOneBytes).1) 4 0 = 66 ∧
    formatAt ((processOutputData (initState 1 10) exampleOneBytes).1) 4 0 = defaultCharFormat ∧
    ((processOutputData (initState 1 10) exampleOneBytes).1).cursorX = 8 := by
  decide

/-- C3: the claim (spec Example 2) states that ESC ] 7 ; /home/user BEL raises
exactly one workingDirectoryChanged event and mutates no screen cell.  The
code dispatches on the byte ] (0x5D, a final byte) with the buffer still
incomplete, resets the parser, prints 7;/home/user literally onto the screen
(cell (0,0) becomes the digit 7), raises zero workingDirectoryChanged events,
and leaves m_workingDirectory untouched. -/
theorem claim_C3_divergence :
    ((processOutputData (initState 2 20) exampleTwoBytes).2.filter isWdEvent).length = 0 ∧
    characterAt ((processOutputData (initState 2 20) exampleTwoBytes).1) 0 0 = 55 ∧
    ((processOutputData (initState 2 20) exampleTwoBytes).1).workingDirectory = [] := by
  decide

/-- C4: the claim (spec Example 3) states that 25 newline-separated lines on a
24x80 screen with the default scroll region scroll the first line off the
screen.  The code clamps the cursor to the last row inside
setCursorPositionInternal BEFORE comparing it against the scroll-region
bottom, so with the default full-screen region the comparison
cursorY > scrollRegionBottom never holds and no scroll occurs: the first
line still has its character at (0,0), and the character of input line 25
lands on the last row only because line feed does not home the column. -/
theorem claim_C4_divergence :
    characterAt ((processOutputData (initState 24 80) exampleThreeBytes).1) 0 0 = 97 ∧
    ((processOutputData (initState 24 80) exampleThreeBytes).1).cursorY = 23 ∧
    characterAt ((processOutputData (initState 24 80) exampleThreeBytes).1) 24 23 = 121 := by
  decide

theorem processBytes_append (c : Core) (a b : List Nat) :
    processBytes c (a ++ b) =
      ((processBytes (processBytes c a).1 b).1,
       (processBytes c a).2 ++ (processBytes (processBytes c a).1 b).2) := by
  induction a generalizing c with
  | nil => simp [processBytes]
  | cons x xs ih => simp [processBytes, andE, ih]

/-- C2: processing a byte stream in one call of processOutputData and
processing any prefix/suffix split of it in two consecutive calls reach
exactly the same final emulator state (screen buffers, cursor position,
current format, and the persisted mid-sequence parser state), because the
byte loop threads all parser state through the member fields. -/
theorem claim_C2_chunk_equivalence (c : Core) (s : List Nat) (i : Nat) :
    (processOutputData (processOutputData c (List.take i s)).1 (List.drop i s)).1 =
      (processOutputData c s).1 := by
  have h := processBytes_append c (List.take i s) (List.drop i s)
  rw [List.take_append_drop] at h
  simp [processOutputData, h]

theorem processCSI_altOn_fst (c : Core) : (processCSI c csiAltOn).1 =
    { c with savedCursorX := c.cursorX, savedCursorY := c.cursorY,
             savedFormat := c.currentFormat, alternateScreenActive := true,
             cursorX := max 0 (min 0 (c.width - 1)),
             cursorY := max 0 (min 0 (c.height - 1)) } := rfl

theorem processCSI_altOff_fst (c : Core) : (processCSI c csiAltOff).1 =
    { c with alternateScreenActive := false, cursorX := c.savedCursorX,
             cursorY := c.savedCursorY, currentFormat := c.savedFormat } := rfl

/-- C6: processing CSI ?1049h and then CSI ?1049l through processCSI restores
the cursor position and the current format exactly (1049h saves them before
switching to the alternate screen; 1049l assigns the saved values back
verbatim), and leaves the primary screen active whenever it was active
before the toggle. -/
theorem claim_C6_mode1049_roundtrip (c : Core) (_h : c.alternateScreenActive = false) :
    (processCSI (processCSI c csiAltOn).1 csiAltOff).1.cursorX = c.cursorX ∧
    (processCSI (processCSI c csiAltOn).1 csiAltOff).1.cursorY = c.cursorY ∧
    (processCSI (processCSI c csiAltOn).1 csiAltOff).1.currentFormat = c.currentFormat ∧
    (processCSI (processCSI c csiAltOn).1 csiAltOff).1.alternateScreenActive = false := by
  rw [processCSI_altOn_fst, processCSI_altOff_fst]
  exact ⟨rfl, rfl, rfl, rfl⟩

/-- Witness for C6 at a concrete state: a fresh 3-row, 5-column emulator. -/
theorem claim_C6_witness :
    (initState 3 5).alternateScreenActive = false ∧
    ((processCSI (processCSI (initState 3 5) csiAltOn).1 csiAltOff).1.cursorX =
        (initState 3 5).cursorX ∧
     (processCSI (processCSI (initState 3 5) csiAltOn).1 csiAltOff).1.cursorY =
        (initState 3 5).cursorY ∧
     (processCSI (processCSI (initState 3 5) csiAltOn).1 csiAltOff).1.currentFormat =
        (initState 3 5).currentFormat ∧
     (processCSI (processCSI (initState 3 5) csiAltOn).1 csiAltOff).1.alternateScreenActive =
        false) :=
  ⟨rfl, claim_C6_mode1049_roundtrip (initState 3 5) rfl⟩

/-- C7 (counterexample): characterAt on an out-of-bounds coordinate returns
QChar(), the null character, not a blank space: on a freshly initialized
2x2 screen, reading column 5 of row 0 yields code 0, not 32. -/
theorem claim_C7_counterexample :
    ¬ characterAt (initState 2 2) 5 0 = 32 := by
  decide

/-- C7 (amended): reads never fail, and an in-bounds position beyond the
length of the stored line does return a blank space with the current format;
but an out-of-bounds coordinate returns QChar() (the null character) and the
default-constructed format, not a blank space with the current format. -/
theorem claim_C7_amended (c : Core) (x y : Int) :
    ((y < 0 ∨ (c.activeScreen.length : Int) ≤ y ∨ x < 0 ∨ c.width ≤ x) →
      characterAt c x y = 0 ∧ formatAt c x y = defaultCharFormat) ∧
    (¬ (y < 0 ∨ (c.activeScreen.length : Int) ≤ y ∨ x < 0 ∨ c.width ≤ x) →
      ((c.activeScreen.getD y.toNat []).length : Int) ≤ x →
      characterAt c x y = 32 ∧ formatAt c x y = c.currentFormat) := by
  constructor
  · intro h
    constructor <;> simp [characterAt, formatAt, h]
  · intro h hlen
    rw [List.getD_eq_getElem?_getD] at hlen
    constructor <;> simp [characterAt, formatAt, h] <;>
      exact fun hx => absurd hx (by omega)

/-- Witness for C7: on a fresh 2x2 screen, column 5 of row 0 is out of
bounds; on a 2x2 screen with empty stored lines, (1,0) is in bounds but
beyond the length of the line. -/
theorem claim_C7_witness :
    (((0 : Int) < 0 ∨ ((initState 2 2).activeScreen.length : Int) ≤ 0 ∨ (5 : Int) < 0 ∨
        (initState 2 2).width ≤ 5) ∧
      characterAt (initState 2 2) 5 0 = 0 ∧
      formatAt (initState 2 2) 5 0 = defaultCharFormat) ∧
    (¬ ((0 : Int) < 0 ∨ (shortLineState.activeScreen.length : Int) ≤ 0 ∨ (1 : Int) < 0 ∨
        shortLineState.width ≤ 1) ∧
      ((shortLineState.activeScreen.getD 0 []).length : Int) ≤ 1 ∧
      characterAt shortLineState 1 0 = 32 ∧
      formatAt shortLineState 1 0 = shortLineState.currentFormat) :=
  ⟨⟨by decide, (claim_C7_amended (initState 2 2) 5 0).1 (by decide)⟩,
   ⟨by decide, by decide,
    (claim_C7_amended shortLineState 1 0).2 (by decide) (by decide)⟩⟩

theorem cellAt_blankify (s : List TerminalLine) (a : TerminalCell) (i j : Nat) :
    cellAt (s.map (fun row => List.replicate row.length a)) i j
      = (cellAt s i j).map (fun _ => a) := by
  simp only [cellAt, List.getElem?_map]
  cases h : s[i]? with
  | none => simp
  | some row =>
      by_cases hj : j < row.length
      · simp [List.getElem?_replicate, hj, List.getElem?_eq_getElem hj]
      · simp [List.getElem?_replicate, hj, List.getElem?_eq_none (le_of_not_lt hj)]

/-- C10: clear() fills every cell of the active screen with a space carrying
the CURRENT format (not the default one), homes the cursor to (0,0), and
leaves the inactive screen untouched; the FF control byte reaches exactly
this clear() when the parser is not mid-sequence. -/
theorem claim_C10_clear (c : Core) (i j : Nat) (hp : c.parsingEscapeSequence = false) :
    cellAt (clear c).1.activeScreen i j
      = (cellAt c.activeScreen i j).map (fun _ => blankCell c.currentFormat) ∧
    (clear c).1.cursorX = 0 ∧ (clear c).1.cursorY = 0 ∧
    (clear c).1.inactiveScreen = c.inactiveScreen ∧
    (processOutputData c [12]).1 = (clear c).1 := by
  refine ⟨?_, ?_, ?_, ?_, ?_⟩
  · cases hA : c.alternateScreenActive <;>
      simp [clear, setCursorPositionInternal, Core.setActive, Core.activeScreen, hA] <;>
      exact cellAt_blankify _ _ i j
  · cases hA : c.alternateScreenActive <;>
      simp [clear, setCursorPositionInternal, Core.setActive, hA]
  · cases hA : c.alternateScreenActive <;>
      simp [clear, setCursorPositionInternal, Core.setActive, hA]
  · cases hA : c.alternateScreenActive <;>
      simp [clear, setCursorPositionInternal, Core.setActive, Core.activeScreen,
        Core.inactiveScreen, hA]
  · simp [processOutputData, processBytes, processByte, andE, hp]

/-- Witness for C10: a fresh 2x3 emulator at cell (0,1). -/
theorem claim_C10_witness :
    (initState 2 3).parsingEscapeSequence = false ∧
    (cellAt (clear (initState 2 3)).1.activeScreen 0 1
      = (cellAt (initState 2 3).activeScreen 0 1).map
          (fun _ => blankCell (initState 2 3).currentFormat) ∧
     (clear (initState 2 3)).1.cursorX = 0 ∧ (clear (initState 2 3)).1.cursorY = 0 ∧
     (clear (initState 2 3)).1.inactiveScreen = (initState 2 3).inactiveScreen ∧
     (processOutputData (initState 2 3) [12]).1 = (clear (initState 2 3)).1) :=
  ⟨rfl, claim_C10_clear (initState 2 3) 0 1 rfl⟩

@[simp] theorem setActive_currentFormat (c : Core) (s : List TerminalLine) :
    (c.setActive s).currentFormat = c.currentFormat := by
  unfold Core.setActive; split <;> rfl

@[simp] theorem setCursor_fst_currentFormat (c : Core) (x y : Int) (b : Bool) :
    (setCursorPositionInternal c x y b).1.currentFormat = c.currentFormat := rfl

theorem scrollScreen_currentFormat (c : Core) (n : Int) :
    (scrollScreen c n).currentFormat = c.currentFormat := by
  unfold scrollScreen; split <;> simp

theorem putCharacter_currentFormat (c : Core) (ch : Nat) :
    (putCharacter c ch).1.currentFormat = c.currentFormat := by
  simp only [putCharacter, andE]
  split_ifs <;> simp [scrollScreen_currentFormat]

theorem applyWrites_currentFormat (c : Core) (ws : List (Int × Int × Nat)) :
    (applyWrites c ws).currentFormat = c.currentFormat := by
  induction ws generalizing c with
  | nil => rfl
  | cons w ws ih =>
      simp only [applyWrites, List.foldl_cons]
      rw [show List.foldl applyWrite (applyWrite c w) ws = applyWrites (applyWrite c w) ws
        from rfl, ih]
      simp [applyWrite, putCharacter_currentFormat]

theorem resize_fst_screen (c : Core) (rows cols : Int) :
    (resize c rows cols).1.screen =
      resizeBuffer c.screen rows.toNat cols.toNat c.currentFormat
        (List.replicate cols.toNat (blankCell c.currentFormat)) := by
  cases hA : c.alternateScreenActive <;>
    simp [resize, andE, setCursorPositionInternal, createBlankLine, hA]

theorem getElem?_resizeLine (row : TerminalLine) (cols : Nat) (fmt : TerminalCharFormat)
    (j : Nat) (hj : j < cols) :
    (resizeLine row cols fmt)[j]? = some ((row[j]?).getD (blankCell fmt)) := by
  unfold resizeLine
  rcases Nat.lt_or_ge j row.length with hjr | hjr
  · have h1 : j < (List.take cols row).length := by
      rw [List.length_take]; omega
    rw [List.getElem?_append, if_pos h1, List.getElem?_take, if_pos hj,
      List.getElem?_eq_getElem hjr]
    simp [List.getElem?_eq_getElem hjr]
  · have h1 : ¬ j < (List.take cols row).length := by
      rw [List.length_take]; omega
    have h2 : j - (List.take cols row).length < cols - cols ⊓ row.length := by
      rw [List.length_take]; omega
    rw [List.getElem?_append, if_neg h1, List.getElem?_replicate, if_pos h2]
    simp [List.getElem?_eq_none hjr]

theorem cellAt_resizeBuffer (s : List TerminalLine) (rows cols : Nat)
    (fmt : TerminalCharFormat) (i j : Nat) (hi : i < rows) (hj : j < cols) :
    cellAt (resizeBuffer s rows cols fmt (List.replicate cols (blankCell fmt))) i j
      = some ((cellAt s i j).getD (blankCell fmt)) := by
  unfold resizeBuffer cellAt
  rcases Nat.lt_or_ge i s.length with his | his
  · have h1 : i < ((s.take rows).map (fun l => resizeLine l cols fmt)).length := by
      simp only [List.length_map, List.length_take]; omega
    rw [List.getElem?_append, if_pos h1, List.getElem?_map, List.getElem?_take,
      if_pos hi, List.getElem?_eq_getElem his]
    simp only [Option.map_some', Option.some_bind]
    rw [getElem?_resizeLine _ _ _ _ hj]
  · have h1 : ¬ i < ((s.take rows).map (fun l => resizeLine l cols fmt)).length := by
      simp only [List.length_map, List.length_take]; omega
    have h2 : i - ((s.take rows).map (fun l => resizeLine l cols fmt)).length
        < rows - rows ⊓ s.length := by
      simp only [List.length_map, List.length_take]; omega
    rw [List.getElem?_append, if_neg h1, List.getElem?_replicate, if_pos h2]
    simp only [Option.some_bind]
    rw [List.getElem?_replicate, if_pos hj, List.getElem?_eq_none his]
    rfl

/-- C5: after initialize(rows, cols) and any sequence of cell writes, resizing
to (rows', cols') leaves every position inside the new bounds holding its
previous cell when one was stored there, and a blank default-format cell when
none was (newly exposed positions); the current format after plain cell
writes is still the default, so the blank padding uses the default format. -/
theorem claim_C5_resize_preserves (rows cols rows' cols' : Int)
    (ws : List (Int × Int × Nat)) (i j : Nat)
    (_hr : 1 ≤ rows) (_hc : 1 ≤ cols) (hr' : 1 ≤ rows') (hc' : 1 ≤ cols')
    (hi : (i : Int) < rows') (hj : (j : Int) < cols') :
    cellAt ((resize (applyWrites (initState rows cols) ws) rows' cols').1).screen i j
      = some ((cellAt (applyWrites (initState rows cols) ws).screen i j).getD
          (blankCell defaultCharFormat)) := by
  have hfmt : (applyWrites (initState rows cols) ws).currentFormat = defaultCharFormat := by
    rw [applyWrites_currentFormat]; rfl
  rw [resize_fst_screen, hfmt]
  exact cellAt_resizeBuffer _ _ _ _ i j (by omega) (by omega)

/-- Witness for C5: initialize 2x2, write x at (0,0), resize to 3x3, and read
the preserved cell (0,0) and a newly exposed cell (2,1). -/
theorem claim_C5_witness :
    ((1 : Int) ≤ 2 ∧ (1 : Int) ≤ 2 ∧ (1 : Int) ≤ 3 ∧ (1 : Int) ≤ 3 ∧
      ((0 : Nat) : Int) < 3 ∧ ((0 : Nat) : Int) < 3 ∧
      cellAt ((resize (applyWrites (initState 2 2) [(0, 0, 120)]) 3 3).1).screen 0 0
        = some ((cellAt (applyWrites (initState 2 2) [(0, 0, 120)]).screen 0 0).getD
            (blankCell defaultCharFormat))) ∧
    (((2 : Nat) : Int) < 3 ∧ ((1 : Nat) : Int) < 3 ∧
      cellAt ((resize (applyWrites (initState 2 2) [(0, 0, 120)]) 3 3).1).screen 2 1
        = some ((cellAt (applyWrites (initState 2 2) [(0, 0, 120)]).screen 2 1).getD
            (blankCell defaultCharFormat))) :=
  ⟨⟨by decide, by decide, by decide, by decide, by decide, by decide,
    claim_C5_resize_preserves 2 2 3 3 [(0, 0, 120)] 0 0 (by decide) (by decide)
      (by decide) (by decide) (by decide) (by decide)⟩,
   ⟨by decide, by decide,
    claim_C5_resize_preserves 2 2 3 3 [(0, 0, 120)] 2 1 (by decide) (by decide)
      (by decide) (by decide) (by decide) (by decide)⟩⟩

theorem insertIdx_eq_take_cons_drop {α : Type} (l : List α) (n : Nat) (a : α)
    (h : n ≤ l.length) :
    List.insertIdx n a l = l.take n ++ a :: l.drop n := by
  induction l generalizing n with
  | nil =>
      have : n = 0 := by simpa using h
      subst this
      simp [List.insertIdx_zero]
  | cons x xs ih =>
      cases n with
      | zero => simp [List.insertIdx_zero]
      | succ n =>
          rw [List.insertIdx_succ_cons, ih n (by simpa using h)]
          simp

@[simp] theorem setActive_width (c : Core) (s : List TerminalLine) :
    (c.setActive s).width = c.width := by
  unfold Core.setActive; split <;> rfl

@[simp] theorem setActive_height (c : Core) (s : List TerminalLine) :
    (c.setActive s).height = c.height := by
  unfold Core.setActive; split <;> rfl

@[simp] theorem setActive_scrollRegionTop (c : Core) (s : List TerminalLine) :
    (c.setActive s).scrollRegionTop = c.scrollRegionTop := by
  unfold Core.setActive; split <;> rfl

@[simp] theorem setActive_scrollRegionBottom (c : Core) (s : List TerminalLine) :
    (c.setActive s).scrollRegionBottom = c.scrollRegionBottom := by
  unfold Core.setActive; split <;> rfl

@[simp] theorem setActive_alternateScreenActive (c : Core) (s : List TerminalLine) :
    (c.setActive s).alternateScreenActive = c.alternateScreenActive := by
  unfold Core.setActive; split <;> rfl

@[simp] theorem activeScreen_setActive (c : Core) (s : List TerminalLine) :
    (c.setActive s).activeScreen = s := by
  unfold Core.setActive Core.activeScreen
  split <;> rename_i h <;> simp [h]

theorem createBlankLine_setActive (c : Core) (s : List TerminalLine) :
    createBlankLine (c.setActive s) = createBlankLine c := by
  simp [createBlankLine]

theorem setActive_activeScreen (c : Core) : c.setActive c.activeScreen = c := by
  unfold Core.setActive Core.activeScreen
  split <;> rfl

theorem scrollUpSteps_of_not_lt (top bottom : Int) (blank : TerminalLine) (n : Nat)
    (s : List TerminalLine) (h : ¬ top < bottom) :
    scrollUpSteps top bottom blank n s = s := by
  induction n with
  | zero => rfl
  | succ n ih => rw [scrollUpSteps, if_neg h]; exact ih

theorem scrollDownSteps_of_not_lt (top bottom : Int) (blank : TerminalLine) (n : Nat)
    (s : List TerminalLine) (h : ¬ top < bottom) :
    scrollDownSteps top bottom blank n s = s := by
  induction n with
  | zero => rfl
  | succ n ih => rw [scrollDownSteps, if_neg h]; exact ih

theorem scrollScreen_pos (c : Core) (n : Int) (h : 0 < n) :
    scrollScreen c n =
      c.setActive (scrollUpSteps c.scrollRegionTop c.scrollRegionBottom
        (createBlankLine c) n.toNat c.activeScreen) := by
  unfold scrollScreen
  split_ifs with h1
  · exact absurd h1 (by omega)
  · rfl

theorem scrollScreen_neg (c : Core) (n : Int) (h : n < 0) :
    scrollScreen c n =
      c.setActive (scrollDownSteps c.scrollRegionTop c.scrollRegionBottom
        (createBlankLine c) (-n).toNat c.activeScreen) := by
  unfold scrollScreen
  split_ifs with h1 h2
  · exact absurd h1 (by omega)
  · exact absurd h2 (by omega)
  · rfl

theorem scrollUp_one (top bottom : Int) (blank : TerminalLine)
    (P M S : List TerminalLine) (ht0 : 0 ≤ top) (htb : top < bottom)
    (hP : P.length = top.toNat) (hM : M.length = bottom.toNat + 1 - top.toNat) :
    List.insertIdx bottom.toNat blank ((P ++ (M ++ S)).eraseIdx top.toNat)
      = P ++ ((M.drop 1 ++ [blank]) ++ S) := by
  have htn : top.toNat < bottom.toNat := by omega
  have hM1 : 1 ≤ M.length := by omega
  rw [List.eraseIdx_eq_take_drop_succ, ← hP, List.take_left]
  rw [show P.length + 1 = P.length + 1 from rfl, List.drop_append]
  rw [List.drop_append_eq_append_drop, show 1 - M.length = 0 by omega, List.drop_zero]
  rw [insertIdx_eq_take_cons_drop _ _ _ (by
    simp only [List.length_append, List.length_drop]; omega)]
  rw [show bottom.toNat = P.length + (M.drop 1).length by
    simp only [List.length_drop]; omega]
  rw [List.take_append, List.drop_append, List.take_left, List.drop_left]
  simp [List.append_assoc]

theorem middle_up_shift (M : List TerminalLine) (blank : TerminalLine) (n : Nat)
    (h : 1 ≤ M.length) :
    (M.drop 1 ++ [blank]).drop n
        ++ List.replicate (min n (M.drop 1 ++ [blank]).length) blank
      = M.drop (n + 1) ++ List.replicate (min (n + 1) M.length) blank := by
  rw [List.drop_append_eq_append_drop, List.drop_drop]
  rcases le_or_lt (n + 1) M.length with hle | hlt
  · rw [show n - (M.drop 1).length = 0 by simp only [List.length_drop]; omega,
      List.drop_zero]
    rw [show min n (M.drop 1 ++ [blank]).length = n by
      simp only [List.length_append, List.length_drop, List.length_singleton]; omega]
    rw [show min (n + 1) M.length = n + 1 by omega]
    rw [show n + 1 = 1 + n by omega, List.append_assoc, List.singleton_append,
      ← List.replicate_succ, Nat.add_comm 1 n]
  · rw [show M.drop (1 + n) = [] from List.drop_eq_nil_of_le (by omega),
      show M.drop (n + 1) = [] from List.drop_eq_nil_of_le (by omega)]
    rw [show [blank].drop (n - (M.drop 1).length) = [] from
      List.drop_eq_nil_of_le (by simp only [List.length_drop, List.length_singleton]; omega)]
    rw [show min n (M.drop 1 ++ [blank]).length = M.length by
      simp only [List.length_append, List.length_drop, List.length_singleton]; omega]
    rw [show min (n + 1) M.length = M.length by omega]
    simp

theorem scrollUpSteps_decomp (top bottom : Int) (blank : TerminalLine) (n : Nat)
    (P M S : List TerminalLine) (ht0 : 0 ≤ top) (htb : top < bottom)
    (hP : P.length = top.toNat) (hM : M.length = bottom.toNat + 1 - top.toNat) :
    scrollUpSteps top bottom blank n (P ++ (M ++ S))
      = P ++ ((M.drop n ++ List.replicate (min n M.length) blank) ++ S) := by
  induction n generalizing M with
  | zero => simp [scrollUpSteps]
  | succ n ih =>
      have hM1 : 1 ≤ M.length := by omega
      rw [scrollUpSteps, if_pos htb, scrollUp_one top bottom blank P M S ht0 htb hP hM]
      rw [ih (M.drop 1 ++ [blank]) (by
        simp only [List.length_append, List.length_drop, List.length_singleton]; omega)]
      rw [middle_up_shift M blank n hM1]

theorem scrollDown_one (top bottom : Int) (blank : TerminalLine)
    (P M S : List TerminalLine) (ht0 : 0 ≤ top) (htb : top < bottom)
    (hP : P.length = top.toNat) (hM : M.length = bottom.toNat + 1 - top.toNat) :
    List.insertIdx top.toNat blank ((P ++ (M ++ S)).eraseIdx bottom.toNat)
      = P ++ ((blank :: M.take (M.length - 1)) ++ S) := by
  have htn : top.toNat < bottom.toNat := by omega
  have hM1 : 1 ≤ M.length := by omega
  rw [List.eraseIdx_eq_take_drop_succ]
  rw [show bottom.toNat = P.length + (M.length - 1) by omega, List.take_append]
  rw [List.take_append_eq_append_take, show M.length - 1 - M.length = 0 by omega,
    List.take_zero, List.append_nil]
  rw [show P.length + (M.length - 1) + 1 = P.length + M.length by omega,
    List.drop_append, List.drop_append_eq_append_drop, List.drop_length,
    List.nil_append, show M.length - M.length = 0 by omega, List.drop_zero]
  rw [insertIdx_eq_take_cons_drop _ _ _ (by
    simp only [List.length_append, List.length_take]; omega)]
  rw [List.append_assoc, ← hP, show P.length = P.length + 0 by omega, List.take_append,
    List.drop_append, List.take_zero, List.drop_zero, List.append_nil]
  simp [List.append_assoc]

theorem middle_down_shift (M : List TerminalLine) (blank : TerminalLine) (n : Nat)
    (h : 1 ≤ M.length) :
    List.replicate (min n (blank :: M.take (M.length - 1)).length) blank
        ++ (blank :: M.take (M.length - 1)).take ((blank :: M.take (M.length - 1)).length - n)
      = List.replicate (min (n + 1) M.length) blank ++ M.take (M.length - (n + 1)) := by
  have hlen : (blank :: M.take (M.length - 1)).length = M.length := by
    simp only [List.length_cons, List.length_take]; omega
  rw [hlen]
  rcases le_or_lt (n + 1) M.length with hle | hlt
  · rw [show min n M.length = n by omega, show min (n + 1) M.length = n + 1 by omega]
    rw [show M.length - n = (M.length - n - 1) + 1 by omega]
    rw [List.take_succ_cons, List.take_take]
    rw [show min (M.length - n - 1) (M.length - 1) = M.length - (n + 1) by omega]
    rw [List.replicate_succ', List.append_assoc, List.singleton_append]
  · rw [show min n M.length = M.length by omega,
      show min (n + 1) M.length = M.length by omega,
      show M.length - n = 0 by omega, show M.length - (n + 1) = 0 by omega]
    simp

theorem scrollDownSteps_decomp (top bottom : Int) (blank : TerminalLine) (n : Nat)
    (P M S : List TerminalLine) (ht0 : 0 ≤ top) (htb : top < bottom)
    (hP : P.length = top.toNat) (hM : M.length = bottom.toNat + 1 - top.toNat) :
    scrollDownSteps top bottom blank n (P ++ (M ++ S))
      = P ++ ((List.replicate (min n M.length) blank ++ M.take (M.length - n)) ++ S) := by
  induction n generalizing M with
  | zero => simp [scrollDownSteps]
  | succ n ih =>
      have hM1 : 1 ≤ M.length := by omega
      rw [scrollDownSteps, if_pos htb, scrollDown_one top bottom blank P M S ht0 htb hP hM]
      rw [ih (blank :: M.take (M.length - 1)) (by
        simp only [List.length_cons, List.length_take]; omega)]
      rw [middle_down_shift M blank n hM1]

theorem scrollScreen_noop (c : Core) (m : Int)
    (he : c.scrollRegionTop = c.scrollRegionBottom) : scrollScreen c m = c := by
  rcases lt_trichotomy m 0 with h | h | h
  · rw [scrollScreen_neg c m h, scrollDownSteps_of_not_lt _ _ _ _ _ (by omega),
      setActive_activeScreen]
  · subst h
    unfold scrollScreen
    rw [if_pos rfl]
  · rw [scrollScreen_pos c m h, scrollUpSteps_of_not_lt _ _ _ _ _ (by omega),
      setActive_activeScreen]

theorem scroll_roundtrip_key (c : Core) (N : Int) (hN : 1 ≤ N)
    (ht0 : 0 ≤ c.scrollRegionTop) (htb : c.scrollRegionTop < c.scrollRegionBottom)
    (hbl : c.scrollRegionBottom < (c.activeScreen.length : Int)) :
    ∃ B : List TerminalLine,
      B.length = c.scrollRegionBottom.toNat + 1 - c.scrollRegionTop.toNat ∧
      (∀ k' : Nat, k' < min N.toNat
          (c.scrollRegionBottom.toNat + 1 - c.scrollRegionTop.toNat) →
        B[k']? = some (createBlankLine c)) ∧
      (scrollScreen (scrollScreen c N) (-N)).activeScreen
        = c.activeScreen.take c.scrollRegionTop.toNat
          ++ (B ++ c.activeScreen.drop (c.scrollRegionBottom.toNat + 1)) := by
  have htn : c.scrollRegionTop.toNat < c.scrollRegionBottom.toNat := by omega
  have hAlen : c.scrollRegionBottom.toNat < c.activeScreen.length := by omega
  have hlenP : (c.activeScreen.take c.scrollRegionTop.toNat).length
      = c.scrollRegionTop.toNat := by
    rw [List.length_take]; omega
  have hlenM : ((c.activeScreen.drop c.scrollRegionTop.toNat).take
        (c.scrollRegionBottom.toNat + 1 - c.scrollRegionTop.toNat)).length
      = c.scrollRegionBottom.toNat + 1 - c.scrollRegionTop.toNat := by
    rw [List.length_take, List.length_drop]; omega
  have hsplit : c.activeScreen
      = c.activeScreen.take c.scrollRegionTop.toNat
        ++ ((c.activeScreen.drop c.scrollRegionTop.toNat).take
              (c.scrollRegionBottom.toNat + 1 - c.scrollRegionTop.toNat)
            ++ c.activeScreen.drop (c.scrollRegionBottom.toNat + 1)) := by
    calc c.activeScreen
        = c.activeScreen.take c.scrollRegionTop.toNat
            ++ c.activeScreen.drop c.scrollRegionTop.toNat :=
          (List.take_append_drop _ _).symm
      _ = c.activeScreen.take c.scrollRegionTop.toNat
            ++ ((c.activeScreen.drop c.scrollRegionTop.toNat).take
                  (c.scrollRegionBottom.toNat + 1 - c.scrollRegionTop.toNat)
                ++ (c.activeScreen.drop c.scrollRegionTop.toNat).drop
                  (c.scrollRegionBottom.toNat + 1 - c.scrollRegionTop.toNat)) := by
          exact congrArg
            (fun t => c.activeScreen.take c.scrollRegionTop.toNat ++ t)
            (List.take_append_drop _ _).symm
      _ = _ := by
          rw [List.drop_drop,
            show c.scrollRegionTop.toNat
                + (c.scrollRegionBottom.toNat + 1 - c.scrollRegionTop.toNat)
                = c.scrollRegionBottom.toNat + 1 by omega]
  have hlenA' : (((c.activeScreen.drop c.scrollRegionTop.toNat).take
        (c.scrollRegionBottom.toNat + 1 - c.scrollRegionTop.toNat)).drop N.toNat
      ++ List.replicate (min N.toNat
          ((c.activeScreen.drop c.scrollRegionTop.toNat).take
            (c.scrollRegionBottom.toNat + 1 - c.scrollRegionTop.toNat)).length)
          (createBlankLine c)).length
      = c.scrollRegionBottom.toNat + 1 - c.scrollRegionTop.toNat := by
    simp only [List.length_append, List.length_drop, List.length_replicate,
      List.length_take]
    omega
  have hfull : (scrollScreen (scrollScreen c N) (-N)).activeScreen
      = c.activeScreen.take c.scrollRegionTop.toNat
        ++ ((List.replicate (min N.toNat
              (((c.activeScreen.drop c.scrollRegionTop.toNat).take
                  (c.scrollRegionBottom.toNat + 1 - c.scrollRegionTop.toNat)).drop N.toNat
                ++ List.replicate (min N.toNat
                    ((c.activeScreen.drop c.scrollRegionTop.toNat).take
                      (c.scrollRegionBottom.toNat + 1 - c.scrollRegionTop.toNat)).length)
                    (createBlankLine c)).length)
              (createBlankLine c)
            ++ (((c.activeScreen.drop c.scrollRegionTop.toNat).take
                  (c.scrollRegionBottom.toNat + 1 - c.scrollRegionTop.toNat)).drop N.toNat
                ++ List.replicate (min N.toNat
                    ((c.activeScreen.drop c.scrollRegionTop.toNat).take
                      (c.scrollRegionBottom.toNat + 1 - c.scrollRegionTop.toNat)).length)
                    (createBlankLine c)).take
                ((((c.activeScreen.drop c.scrollRegionTop.toNat).take
                    (c.scrollRegionBottom.toNat + 1 - c.scrollRegionTop.toNat)).drop N.toNat
                  ++ List.replicate (min N.toNat
                      ((c.activeScreen.drop c.scrollRegionTop.toNat).take
                        (c.scrollRegionBottom.toNat + 1 - c.scrollRegionTop.toNat)).length)
                      (createBlankLine c)).length - N.toNat))
          ++ c.activeScreen.drop (c.scrollRegionBottom.toNat + 1)) := by
    rw [scrollScreen_neg _ _ (by omega : -N < 0), neg_neg]
    rw [activeScreen_setActive]
    rw [scrollScreen_pos c N (by omega)]
    rw [setActive_scrollRegionTop, setActive_scrollRegionBottom,
      createBlankLine_setActive, activeScreen_setActive]
    conv_lhs => rw [hsplit]
    rw [scrollUpSteps_decomp _ _ _ _ _ _ _ ht0 htb hlenP hlenM]
    rw [scrollDownSteps_decomp _ _ _ _ _ _ _ ht0 htb hlenP hlenA']
  refine ⟨_, ?_, ?_, hfull⟩
  · simp only [List.length_append, List.length_replicate, List.length_take,
      List.length_drop]
    omega
  · intro k' hk'
    rw [List.getElem?_append, if_pos (by
      simp only [List.length_replicate, List.length_append, List.length_drop,
        List.length_take]
      omega)]
    rw [List.getElem?_replicate, if_pos (by
      simp only [List.length_append, List.length_drop, List.length_take,
        List.length_replicate]
      omega)]

/-- C8: scrollScreen with a degenerate region (top = bottom) leaves the state
unchanged, because each loop iteration is guarded by top < bottom; and with a
proper region lying inside the screen, scrolling N lines up and then N lines
down leaves every row outside the region untouched and leaves blank lines
(spaces in the current format) in the first min(N, region size) rows of the
region - the rows that rotated through the edge of the region. -/
theorem claim_C8_scroll_roundtrip (c : Core) (N m : Int) (i k : Nat) :
    (c.scrollRegionTop = c.scrollRegionBottom → scrollScreen c m = c) ∧
    (1 ≤ N → 0 ≤ c.scrollRegionTop → c.scrollRegionTop < c.scrollRegionBottom →
      c.scrollRegionBottom < (c.activeScreen.length : Int) →
      ((((i : Int) < c.scrollRegionTop ∨ c.scrollRegionBottom < (i : Int)) →
          (scrollScreen (scrollScreen c N) (-N)).activeScreen[i]?
            = c.activeScreen[i]?) ∧
       ((k : Int) < N → (k : Int) ≤ c.scrollRegionBottom - c.scrollRegionTop →
          (scrollScreen (scrollScreen c N) (-N)).activeScreen[c.scrollRegionTop.toNat + k]?
            = some (createBlankLine c)))) := by
  constructor
  · intro he
    exact scrollScreen_noop c m he
  · intro hN ht0 htb hbl
    obtain ⟨B, hBlen, hBblank, hkey⟩ := scroll_roundtrip_key c N hN ht0 htb hbl
    have hlenP : (c.activeScreen.take c.scrollRegionTop.toNat).length
        = c.scrollRegionTop.toNat := by
      rw [List.length_take]; omega
    have hlenM : ((c.activeScreen.drop c.scrollRegionTop.toNat).take
          (c.scrollRegionBottom.toNat + 1 - c.scrollRegionTop.toNat)).length
        = c.scrollRegionBottom.toNat + 1 - c.scrollRegionTop.toNat := by
      rw [List.length_take, List.length_drop]; omega
    have hsplit : c.activeScreen
        = c.activeScreen.take c.scrollRegionTop.toNat
          ++ ((c.activeScreen.drop c.scrollRegionTop.toNat).take
                (c.scrollRegionBottom.toNat + 1 - c.scrollRegionTop.toNat)
              ++ c.activeScreen.drop (c.scrollRegionBottom.toNat + 1)) := by
      calc c.activeScreen
          = c.activeScreen.take c.scrollRegionTop.toNat
              ++ c.activeScreen.drop c.scrollRegionTop.toNat :=
            (List.take_append_drop _ _).symm
        _ = c.activeScreen.take c.scrollRegionTop.toNat
              ++ ((c.activeScreen.drop c.scrollRegionTop.toNat).take
                    (c.scrollRegionBottom.toNat + 1 - c.scrollRegionTop.toNat)
                  ++ (c.activeScreen.drop c.scrollRegionTop.toNat).drop
                    (c.scrollRegionBottom.toNat + 1 - c.scrollRegionTop.toNat)) := by
            exact congrArg
              (fun t => c.activeScreen.take c.scrollRegionTop.toNat ++ t)
              (List.take_append_drop _ _).symm
        _ = _ := by
            rw [List.drop_drop,
              show c.scrollRegionTop.toNat
                  + (c.scrollRegionBottom.toNat + 1 - c.scrollRegionTop.toNat)
                  = c.scrollRegionBottom.toNat + 1 by omega]
    constructor
    · intro hi
      rw [hkey]
      conv_rhs => rw [hsplit]
      simp only [List.getElem?_append, hlenP, hlenM, hBlen]
      rcases hi with hi | hi
      · have hitn : i < c.scrollRegionTop.toNat := by omega
        rw [if_pos hitn]
        rw [if_pos hitn]
      · have h1 : ¬ i < c.scrollRegionTop.toNat := by omega
        have h2 : ¬ i - c.scrollRegionTop.toNat
            < c.scrollRegionBottom.toNat + 1 - c.scrollRegionTop.toNat := by omega
        rw [if_neg h1]
        rw [if_neg h1]
        rw [if_neg h2]
        rw [if_neg h2]
    · intro hk1 hk2
      rw [hkey]
      simp only [List.getElem?_append, hlenP, hBlen]
      have h1 : ¬ c.scrollRegionTop.toNat + k < c.scrollRegionTop.toNat := by omega
      rw [if_neg h1,
        show c.scrollRegionTop.toNat + k - c.scrollRegionTop.toNat = k by omega,
        if_pos (by omega : k < c.scrollRegionBottom.toNat + 1 - c.scrollRegionTop.toNat)]
      exact hBblank k (by omega)

/-- Witness for C8: the no-op half on a 1-row screen (whose default region has
top = bottom = 0), and the round-trip half on a 4-row screen with region rows
1..2, reading row 0 (outside the region) and region row 0 (blank-filled). -/
theorem claim_C8_witness :
    ((initState 1 3).scrollRegionTop = (initState 1 3).scrollRegionBottom ∧
      scrollScreen (initState 1 3) 5 = initState 1 3) ∧
    ((1 : Int) ≤ 1 ∧ (0 : Int) ≤ scrollDemoState.scrollRegionTop ∧
      scrollDemoState.scrollRegionTop < scrollDemoState.scrollRegionBottom ∧
      scrollDemoState.scrollRegionBottom < (scrollDemoState.activeScreen.length : Int) ∧
      (((0 : Nat) : Int) < scrollDemoState.scrollRegionTop ∨
        scrollDemoState.scrollRegionBottom < ((0 : Nat) : Int)) ∧
      (scrollScreen (scrollScreen scrollDemoState 1) (-1)).activeScreen[(0 : Nat)]?
        = scrollDemoState.activeScreen[(0 : Nat)]? ∧
      ((0 : Nat) : Int) < 1 ∧
      ((0 : Nat) : Int)
        ≤ scrollDemoState.scrollRegionBottom - scrollDemoState.scrollRegionTop ∧
      (scrollScreen (scrollScreen scrollDemoState 1)
          (-1)).activeScreen[scrollDemoState.scrollRegionTop.toNat + 0]?
        = some (createBlankLine scrollDemoState)) :=
  ⟨⟨by decide, (claim_C8_scroll_roundtrip (initState 1 3) 1 5 0 0).1 (by decide)⟩,
   ⟨by decide, by decide, by decide, by decide, by decide,
    ((claim_C8_scroll_roundtrip scrollDemoState 1 5 0 0).2 (by decide) (by decide)
        (by decide) (by decide)).1 (by decide),
    by decide, by decide,
    ((claim_C8_scroll_roundtrip scrollDemoState 1 5 0 0).2 (by decide) (by decide)
        (by decide) (by decide)).2 (by decide) (by decide)⟩⟩

/-- C9 (counterexample): the cursor does not stay within the screen bounds
after every operation.  Move the cursor to (2,2) on a 3x3 screen, save it
(CSI s), shrink the screen to 1x1, then restore (CSI u): the restore path
assigns the saved position without clamping, leaving the cursor at (2,2) on
a 1x1 screen. -/
theorem claim_C9_counterexample :
    let d1 := (processCSI (initState 3 3) csiCup33).1
    let d2 := (processCSI d1 csiSaveCursor).1
    let d3 := (resize d2 1 1).1
    let d4 := (processCSI d3 csiRestoreCursor).1
    ¬ (d4.cursorX < d4.width ∧ d4.cursorY < d4.height) := by
  decide

@[simp] theorem setActive_cursorX (c : Core) (s : List TerminalLine) :
    (c.setActive s).cursorX = c.cursorX := by
  unfold Core.setActive; split <;> rfl

@[simp] theorem setActive_cursorY (c : Core) (s : List TerminalLine) :
    (c.setActive s).cursorY = c.cursorY := by
  unfold Core.setActive; split <;> rfl

@[simp] theorem setActive_savedCursorX (c : Core) (s : List TerminalLine) :
    (c.setActive s).savedCursorX = c.savedCursorX := by
  unfold Core.setActive; split <;> rfl

@[simp] theorem setActive_savedCursorY (c : Core) (s : List TerminalLine) :
    (c.setActive s).savedCursorY = c.savedCursorY := by
  unfold Core.setActive; split <;> rfl

theorem emuInv_setCursor (c : Core) (x y : Int) (h : emuInv c) :
    emuInv (setCursorPositionInternal c x y true).1 := by
  simp only [emuInv, cursorInv, setCursorPositionInternal] at h ⊢
  simp at h ⊢
  omega

theorem emuInv_setActive (c : Core) (s : List TerminalLine) (h : emuInv c) :
    emuInv (c.setActive s) := by
  simp only [emuInv, cursorInv] at h ⊢
  simpa using h

theorem emuInv_scrollScreen (c : Core) (n : Int) (h : emuInv c) :
    emuInv (scrollScreen c n) := by
  simp only [scrollScreen]
  split_ifs <;> first
    | exact h
    | exact emuInv_setActive _ _ h

theorem emuInv_clear (c : Core) (h : emuInv c) : emuInv (clear c).1 :=
  emuInv_setCursor _ _ _ (emuInv_setActive _ _ h)

theorem emuInv_putCharacter (c : Core) (ch : Nat) (h : emuInv c) :
    emuInv (putCharacter c ch).1 := by
  simp only [putCharacter, andE]
  split_ifs
  · exact h
  · exact emuInv_setCursor _ _ _
      (emuInv_scrollScreen _ _ (emuInv_setCursor _ _ _ (emuInv_setActive _ _ h)))
  · exact emuInv_setCursor _ _ _ (emuInv_setActive _ _ h)
  · exact emuInv_setCursor _ _ _ (emuInv_setActive _ _ h)

theorem emuInv_processSGR (c : Core) (ps : List Int) (h : emuInv c) :
    emuInv (processSGR c ps) := by
  simp only [processSGR]
  split_ifs <;> exact h

theorem emuInv_eraseDisplay (c : Core) (m : Int) (h : emuInv c) :
    emuInv (eraseDisplay c m) := by
  simp only [eraseDisplay]
  split_ifs <;> first
    | exact h
    | exact emuInv_setActive _ _ h
    | exact emuInv_setActive _ _ (emuInv_setActive _ _ h)

theorem emuInv_eraseLine (c : Core) (m : Int) (h : emuInv c) :
    emuInv (eraseLine c m) := by
  simp only [eraseLine]
  split_ifs <;> first
    | exact h
    | exact emuInv_setActive _ _ h

theorem emuInv_processOSC (c : Core) (seq : List Nat) (h : emuInv c) :
    emuInv (processOSC c seq).1 := by
  simp only [processOSC]
  repeat' split
  all_goals exact h

theorem emuInv_applyPrivateMode (set : Bool) (c : Core) (m : Int) (h : emuInv c) :
    emuInv (applyPrivateMode set c m).1 := by
  simp only [applyPrivateMode]
  split_ifs <;> first
    | exact h
    | exact emuInv_setCursor _ _ _ h
    | exact emuInv_setCursor _ _ _ (by simp only [emuInv, cursorInv] at h ⊢; omega)
    | (simp only [emuInv, cursorInv] at h ⊢; omega)

theorem emuInv_applyStandardMode (set : Bool) (c : Core) (m : Int) (h : emuInv c) :
    emuInv (applyStandardMode set c m).1 := by
  simp only [applyStandardMode]
  split_ifs <;> exact h

theorem emuInv_applyModes (priv set : Bool) (ms : List Int) (c : Core) (h : emuInv c) :
    emuInv (applyModes priv set c ms).1 := by
  induction ms generalizing c with
  | nil => exact h
  | cons m ms ih =>
      simp only [applyModes, andE]
      refine ih _ ?_
      cases priv
      · exact emuInv_applyStandardMode set c m h
      · exact emuInv_applyPrivateMode set c m h

theorem emuInv_csiSetRegion (c : Core) (parameters : List Int) (h : emuInv c) :
    emuInv (csiSetRegion c parameters).1 := by
  simp only [csiSetRegion]
  split_ifs <;> first
    | exact h
    | exact emuInv_setCursor _ _ _ (by simp only [emuInv, cursorInv] at h ⊢; omega)

theorem emuInv_csiModeSet (c : Core) (seq : List Nat) (fp finalByte : Nat)
    (h : emuInv c) : emuInv (csiModeSet c seq fp finalByte).1 := by
  simp only [csiModeSet]
  split_ifs <;> first
    | exact h
    | exact emuInv_applyModes _ _ _ _ h

theorem emuInv_processCSIDispatch (c : Core) (seq : List Nat) (fp finalByte : Nat)
    (parameters : List Int) (h : emuInv c) :
    emuInv (processCSIDispatch c seq fp finalByte parameters).1 := by
  unfold processCSIDispatch
  by_cases h1 : finalByte = 65
  · rw [if_pos h1]; exact emuInv_setCursor _ _ _ h
  rw [if_neg h1]
  by_cases h2 : finalByte = 66
  · rw [if_pos h2]; exact emuInv_setCursor _ _ _ h
  rw [if_neg h2]
  by_cases h3 : finalByte = 67
  · rw [if_pos h3]; exact emuInv_setCursor _ _ _ h
  rw [if_neg h3]
  by_cases h4 : finalByte = 68
  · rw [if_pos h4]; exact emuInv_setCursor _ _ _ h
  rw [if_neg h4]
  by_cases h5 : finalByte = 69
  · rw [if_pos h5]; exact emuInv_setCursor _ _ _ h
  rw [if_neg h5]
  by_cases h6 : finalByte = 70
  · rw [if_pos h6]; exact emuInv_setCursor _ _ _ h
  rw [if_neg h6]
  by_cases h7 : finalByte = 71
  · rw [if_pos h7]; exact emuInv_setCursor _ _ _ h
  rw [if_neg h7]
  by_cases h8 : finalByte = 72 ∨ finalByte = 102
  · rw [if_pos h8]; exact emuInv_setCursor _ _ _ h
  rw [if_neg h8]
  by_cases h9 : finalByte = 74
  · rw [if_pos h9]; exact emuInv_eraseDisplay _ _ h
  rw [if_neg h9]
  by_cases h10 : finalByte = 75
  · rw [if_pos h10]; exact emuInv_eraseLine _ _ h
  rw [if_neg h10]
  by_cases h11 : finalByte = 109
  · rw [if_pos h11]; exact emuInv_processSGR _ _ h
  rw [if_neg h11]
  by_cases h12 : finalByte = 114
  · rw [if_pos h12]; exact emuInv_csiSetRegion _ _ h
  rw [if_neg h12]
  by_cases h13 : finalByte = 115
  · rw [if_pos h13]
    simp only [emuInv, cursorInv] at h ⊢
    omega
  rw [if_neg h13]
  by_cases h14 : finalByte = 117
  · rw [if_pos h14]
    simp only [emuInv, cursorInv] at h ⊢
    omega
  rw [if_neg h14]
  by_cases h15 : finalByte = 104 ∨ finalByte = 108
  · rw [if_pos h15]; exact emuInv_csiModeSet _ _ _ _ h
  rw [if_neg h15]
  exact h

theorem emuInv_processCSI (c : Core) (seq : List Nat) (h : emuInv c) :
    emuInv (processCSI c seq).1 := by
  simp only [processCSI]
  split_ifs <;> first
    | exact h
    | exact emuInv_processCSIDispatch _ _ _ _ _ h

set_option maxHeartbeats 1000000 in
theorem emuInv_processEscapeSequence (c : Core) (seq : List Nat) (h : emuInv c) :
    emuInv (processEscapeSequence c seq).1 := by
  unfold processEscapeSequence
  simp only []
  split_ifs <;> first
    | exact h
    | exact emuInv_processCSI _ _ h
    | exact emuInv_processOSC _ _ h
    | exact emuInv_setCursor _ _ _ h
    | (simp only [andE]
       exact emuInv_setCursor _ _ _ (emuInv_clear c h))
    | (simp only [emuInv, cursorInv] at h ⊢; omega)

set_option maxHeartbeats 1000000 in
theorem emuInv_processByte (c : Core) (b : Nat) (h : emuInv c) :
    emuInv (processByte c b).1 := by
  unfold processByte
  simp only []
  split_ifs <;> first
    | exact h
    | exact emuInv_setCursor _ _ _ h
    | exact emuInv_clear _ h
    | (simp only [andE]
       have h2 := emuInv_processEscapeSequence
         { c with escapeBuffer := c.escapeBuffer ++ [b] }
         (c.escapeBuffer ++ [b]) h
       exact h2)
    | (simp only [andE]
       split_ifs <;> first
         | exact emuInv_setCursor _ _ _ (emuInv_scrollScreen _ _ (emuInv_setCursor _ _ _ h))
         | exact emuInv_setCursor _ _ _ h)
    | exact emuInv_putCharacter _ _ h

theorem emuInv_processBytes (c : Core) (data : List Nat) (h : emuInv c) :
    emuInv (processBytes c data).1 := by
  induction data generalizing c with
  | nil => exact h
  | cons b rest ih =>
      simp only [processBytes, andE]
      exact ih _ (emuInv_processByte c b h)

/-- C9 (amended): from any state whose screen has at least one row and one
column and whose cursor and saved cursor lie within the screen bounds,
processing any byte stream keeps the cursor (and saved cursor) within
0..cols-1 x 0..rows-1 - every cursor movement during byte processing is
clamped, and the restore paths re-install a saved position that the
invariant keeps in bounds.  The original claim fails only for the unclamped
restore of a cursor saved before a shrinking resize (see the
counterexample). -/
theorem claim_C9_amended (c : Core) (data : List Nat)
    (hw : 1 ≤ c.width) (hh : 1 ≤ c.height) (hcur : cursorInv c) :
    cursorInv (processOutputData c data).1 :=
  (emuInv_processBytes c data ⟨hw, hh, hcur⟩).2.2

/-- Witness for C9 (amended): a fresh 2x2 emulator processing a character,
a newline and an escape byte. -/
theorem claim_C9_witness :
    (1 : Int) ≤ (initState 2 2).width ∧ (1 : Int) ≤ (initState 2 2).height ∧
    cursorInv (initState 2 2) ∧
    cursorInv (processOutputData (initState 2 2) [97, 10, 27]).1 :=
  ⟨by decide, by decide, by decide,
   claim_C9_amended (initState 2 2) [97, 10, 27] (by decide) (by decide) (by decide)⟩

end WarpKate
